import Mathlib

/-!
Shallow embedding of the CIRS backend (`backend/server.py`): a civic issue
reporting service over a document store.  Each FastAPI handler is modelled as
a pure function on an explicit `State` holding the five Mongo collections.

Modelling conventions:
* Mongo collections are lists in insertion order; `find_one` is `List.find?`,
  `update_one` updates the first match, `delete_one` erases the first match.
* Generated identifiers (`uuid.uuid4()` strings and Mongo `ObjectId`s) are
  modelled as `Id.gen n` drawn from a per-state counter: distinct counter
  values never collide with each other or with client-chosen strings
  (`Id.raw s`), which is the standard idealisation of uuid freshness.
  Every `insert_one` consumes one counter value for the store-native `_id`
  (field `oid` below), in addition to the value consumed by the pydantic
  model's `id` default factory.
* Python floats are modelled as rationals; `datetime.utcnow()` is a
  per-state clock counter.
* Python truthiness on optional parameters (`if lat and lng:`,
  `if category_id:`, `if issue_data.voice_base64:`) is modelled exactly:
  `None`, `0.0` and `""` are falsy.
-/

namespace Cirs

/-- Identifier: `gen n` is a backend-generated identifier (uuid4 value or
Mongo ObjectId rendered as a string), `raw s` an arbitrary client-supplied
string. -/
inductive Id where
  | gen : Nat → Id
  | raw : String → Id
deriving DecidableEq, Repr

/-- Python truthiness of an optional float (`None` and `0.0` are falsy). -/
def floatTruthy : Option ℚ → Bool
  | none => false
  | some x => x != 0

/-- Python truthiness of an optional string (`None` and `""` are falsy). -/
def strOptTruthy : Option String → Bool
  | none => false
  | some s => s != ""

/-- Python truthiness of an optional id-valued string parameter:
`None` and the empty string are falsy; generated ids are never empty. -/
def idTruthy : Option Id → Bool
  | none => false
  | some (Id.raw s) => s != ""
  | some (Id.gen _) => true

/-- Stored document of the `users` collection (pydantic `User` plus the
Mongo `_id` added by `insert_one`). -/
structure UserDoc where
  oid : Id
  id : Id
  name : String
  email : String
  password_hash : String
  phone : Option String
  role : String
  created_at : Nat
deriving DecidableEq, Repr

/-- Stored document of the `categories` collection (pydantic `Category`). -/
structure CategoryDoc where
  oid : Id
  id : Id
  name : String
  description : String
  icon : Option String
deriving DecidableEq, Repr

/-- Stored document of the `issues` collection (pydantic `Issue`). -/
structure IssueDoc where
  oid : Id
  id : Id
  user_id : Id
  category_id : Id
  title : String
  description : String
  image_base64 : Option String
  voice_base64 : Option String
  voice_transcript : Option String
  location_lat : ℚ
  location_long : ℚ
  address : Option String
  status : String
  expected_completion : Option Nat
  actual_completion : Option Nat
  vote_count : Int
  created_at : Nat
  updated_at : Nat
deriving DecidableEq, Repr

/-- Stored document of the `votes` collection (pydantic `Vote`). -/
structure VoteDoc where
  oid : Id
  id : Id
  issue_id : Id
  user_id : Id
  created_at : Nat
deriving DecidableEq, Repr

/-- Stored document of the `comments` collection (pydantic `Comment`). -/
structure CommentDoc where
  oid : Id
  id : Id
  issue_id : Id
  user_id : Id
  message : String
  created_at : Nat
deriving DecidableEq, Repr

/-- The document store plus the id-generation counter (`next`) and the
clock (`time`). -/
structure State where
  users : List UserDoc
  categories : List CategoryDoc
  issues : List IssueDoc
  votes : List VoteDoc
  comments : List CommentDoc
  next : Nat
  time : Nat
deriving DecidableEq, Repr

/-- The empty store. -/
def State.empty : State := ⟨[], [], [], [], [], 0, 0⟩

/-- Mongo `update_one`: apply `f` to the first element satisfying `p`,
leave everything else unchanged. -/
def updateFirst (p : α → Bool) (f : α → α) : List α → List α
  | [] => []
  | a :: as => if p a then f a :: as else a :: updateFirst p f as

/-- An HTTP error raised via `HTTPException(status_code, detail)`. -/
structure HttpError where
  status : Nat
  detail : String
deriving DecidableEq, Repr

/-! ## Users -/

/-- Response of `POST /api/users/register`: the created user dict with `id`
rewritten to `str(result.inserted_id)`. -/
structure RegisterResponse where
  success : Bool
  user : UserDoc
  message : String
deriving DecidableEq, Repr

/-- Handler `register_user` (`POST /api/users/register`).  `hash` models
`hashlib.sha256(...).hexdigest()`. -/
def register_user (s : State) (hash : String → String)
    (name email password : String) (phone : Option String) :
    Except HttpError (RegisterResponse × State) :=
  match s.users.find? (fun u => u.email == email) with
  | some _ => .error ⟨400, "Email already registered"⟩
  | none =>
    let password_hash := hash password
    let user : UserDoc :=
      { oid := Id.gen (s.next + 1), id := Id.gen s.next,
        name := name, email := email, password_hash := password_hash,
        phone := phone, role := "citizen", created_at := s.time }
    let s2 : State :=
      { s with users := s.users ++ [user], next := s.next + 2, time := s.time + 1 }
    .ok ({ success := true, user := { user with id := user.oid },
           message := "User registered successfully" }, s2)

/-- Handler `login_user` (`POST /api/users/login`); the returned user dict
has `id` rewritten to the `_id` string by `object_id_to_str`. -/
def login_user (s : State) (hash : String → String) (email password : String) :
    Except HttpError UserDoc :=
  let password_hash := hash password
  match s.users.find? (fun u => u.email == email && u.password_hash == password_hash) with
  | none => .error ⟨401, "Invalid credentials"⟩
  | some u => .ok { u with id := u.oid }

/-! ## Categories -/

/-- The fixed `default_categories` list of `init_categories`:
name, description, icon. -/
def defaultCategories : List (String × String × Option String) :=
  [("Roads & Transportation", "Potholes, traffic issues, road repairs", some "car"),
   ("Water & Sanitation", "Water leaks, drainage, sewage", some "water-drop"),
   ("Electricity", "Power outages, street lights, electrical issues", some "flash"),
   ("Waste Management", "Garbage collection, littering, recycling", some "trash"),
   ("Public Safety", "Security, crime, emergency services", some "shield"),
   ("Parks & Recreation", "Parks maintenance, recreational facilities", some "leaf"),
   ("Other", "Other civic issues", some "help-circle")]

/-- One iteration of the insert loop of `init_categories`:
`Category(**cat_data)` then `insert_one`. -/
def insertCategory (s : State) (c : String × String × Option String) : State :=
  let cat : CategoryDoc :=
    { oid := Id.gen (s.next + 1), id := Id.gen s.next,
      name := c.1, description := c.2.1, icon := c.2.2 }
  { s with categories := s.categories ++ [cat], next := s.next + 2 }

/-- Response shape `{success, message}`. -/
structure MsgResponse where
  success : Bool
  message : String
deriving DecidableEq, Repr

/-- Handler `init_categories` (`POST /api/categories/init`): `delete_many({})`
then insert the seven defaults. -/
def init_categories (s : State) : MsgResponse × State :=
  let s1 := defaultCategories.foldl insertCategory { s with categories := [] }
  ({ success := true, message := "Categories initialized" }, s1)

/-- Handler `get_categories` (`GET /api/categories`): `find().to_list(1000)`,
each doc through `object_id_to_str`. -/
def get_categories (s : State) : List CategoryDoc :=
  (s.categories.take 1000).map (fun c => { c with id := c.oid })

/-! ## Issues -/

/-- Request body `IssueCreate`. -/
structure IssueCreate where
  title : String
  description : String
  category_id : Id
  image_base64 : Option String
  voice_base64 : Option String
  location_lat : ℚ
  location_long : ℚ
  address : Option String
deriving DecidableEq, Repr

/-- Helper `transcribe_audio`: the outcome of the external LLM call is the
input `result`; on any exception the fixed fallback string is returned, and
on success the response text is discarded in favour of a fixed string. -/
def transcribe_audio (result : Except String String) : String :=
  match result with
  | .ok _ => "Voice note recorded (transcription available in full version)"
  | .error _ => "Voice note recorded (transcription failed)"

/-- Response of `POST /api/issues`: the created issue dict with `id`
rewritten to `str(result.inserted_id)`. -/
structure IssueResponse where
  success : Bool
  issue : IssueDoc
  message : String
deriving DecidableEq, Repr

/-- Handler `create_issue` (`POST /api/issues`).  `transcription` is the
outcome of the external transcription call, consulted only when
`issue_data.voice_base64` is truthy. -/
def create_issue (s : State) (issue_data : IssueCreate) (user_id : Id)
    (transcription : Except String String) : IssueResponse × State :=
  let voice_transcript : Option String :=
    if strOptTruthy issue_data.voice_base64 then
      some (transcribe_audio transcription)
    else none
  let issue : IssueDoc :=
    { oid := Id.gen (s.next + 1), id := Id.gen s.next,
      user_id := user_id, category_id := issue_data.category_id,
      title := issue_data.title, description := issue_data.description,
      image_base64 := issue_data.image_base64,
      voice_base64 := issue_data.voice_base64,
      voice_transcript := voice_transcript,
      location_lat := issue_data.location_lat,
      location_long := issue_data.location_long,
      address := issue_data.address, status := "pending",
      expected_completion := none, actual_completion := none,
      vote_count := 0, created_at := s.time, updated_at := s.time }
  let s2 : State :=
    { s with issues := s.issues ++ [issue], next := s.next + 2, time := s.time + 1 }
  ({ success := true, issue := { issue with id := issue.oid },
     message := "Issue reported successfully" }, s2)

/-- An issue as returned by `get_issues` / `get_issue`: the stored doc after
`object_id_to_str` (`id` becomes the `_id` string), enriched with
`user_name` when the author lookup succeeds and `category_name` /
`category_icon` when the category lookup succeeds (`none` models the key
being absent from the returned dict). -/
structure EnrichedIssue where
  id : Id
  user_id : Id
  category_id : Id
  title : String
  description : String
  image_base64 : Option String
  voice_base64 : Option String
  voice_transcript : Option String
  location_lat : ℚ
  location_long : ℚ
  address : Option String
  status : String
  expected_completion : Option Nat
  actual_completion : Option Nat
  vote_count : Int
  created_at : Nat
  updated_at : Nat
  user_name : Option String
  category_name : Option String
  category_icon : Option (Option String)
deriving DecidableEq, Repr

/-- The per-row enrichment loop shared by `get_issues` and `get_issue`:
`object_id_to_str`, then the user and category lookups (the stored category
dict always carries an `icon` key, so `category.get("icon", "help-circle")`
returns the stored value). -/
def enrichIssue (s : State) (i : IssueDoc) : EnrichedIssue :=
  let user := s.users.find? (fun u => u.id == i.user_id)
  let category := s.categories.find? (fun c => c.id == i.category_id)
  { id := i.oid, user_id := i.user_id, category_id := i.category_id,
    title := i.title, description := i.description,
    image_base64 := i.image_base64, voice_base64 := i.voice_base64,
    voice_transcript := i.voice_transcript,
    location_lat := i.location_lat, location_long := i.location_long,
    address := i.address, status := i.status,
    expected_completion := i.expected_completion,
    actual_completion := i.actual_completion,
    vote_count := i.vote_count, created_at := i.created_at,
    updated_at := i.updated_at,
    user_name := user.map (fun u => u.name),
    category_name := category.map (fun c => c.name),
    category_icon := category.map (fun c => c.icon) }

/-- The `$sort: {vote_count: -1, created_at: -1}` order: `a` may precede
`b` when it has a strictly larger vote count, or an equal vote count and a
later-or-equal creation time. -/
def issueSortR (a b : IssueDoc) : Prop :=
  b.vote_count < a.vote_count ∨
    (a.vote_count = b.vote_count ∧ b.created_at ≤ a.created_at)

instance : DecidableRel issueSortR := fun a b =>
  inferInstanceAs (Decidable (b.vote_count < a.vote_count ∨
    (a.vote_count = b.vote_count ∧ b.created_at ≤ a.created_at)))

instance : IsTotal IssueDoc issueSortR :=
  ⟨fun a b => by unfold issueSortR; omega⟩

instance : IsTrans IssueDoc issueSortR :=
  ⟨fun a b c h1 h2 => by unfold issueSortR at *; omega⟩

/-- The `$match` stage of `get_issues`: the bounding-box condition is added
only when `lat` and `lng` are both truthy (`if lat and lng:`), the category
condition only when `category_id` is truthy (`if category_id:`). -/
def issueMatch (lat lng : Option ℚ) (category_id : Option Id) (i : IssueDoc) : Bool :=
  (if floatTruthy lat && floatTruthy lng then
    match lat, lng with
    | some la, some ln =>
      decide (la - 0.05 ≤ i.location_lat) && decide (i.location_lat ≤ la + 0.05) &&
      decide (ln - 0.05 ≤ i.location_long) && decide (i.location_long ≤ ln + 0.05)
    | _, _ => true
   else true) &&
  (if idTruthy category_id then
    match category_id with
    | some cid => i.category_id == cid
    | none => true
   else true)

/-- Handler `get_issues` (`GET /api/issues`): `$match` (conditional),
`$sort`, `$limit`, then the per-row enrichment loop.  The `radius` query
parameter is accepted but never used. -/
def get_issues (s : State) (lat lng radius : Option ℚ) (category_id : Option Id)
    (limit : Nat) : List EnrichedIssue :=
  let matched := s.issues.filter (issueMatch lat lng category_id)
  let sorted := List.insertionSort issueSortR matched
  (sorted.take limit).map (enrichIssue s)

/-- Handler `get_issue` (`GET /api/issues/{issue_id}`): `find_one` on the
stored `id` field, 404 when absent, enriched otherwise. -/
def get_issue (s : State) (issue_id : Id) : Except HttpError EnrichedIssue :=
  match s.issues.find? (fun i => i.id == issue_id) with
  | none => .error ⟨404, "Issue not found"⟩
  | some i => .ok (enrichIssue s i)

/-! ## Voting -/

/-- Response of `POST /api/issues/{issue_id}/vote`. -/
structure VoteResponse where
  success : Bool
  voted : Bool
  message : String
deriving DecidableEq, Repr

/-- Handler `vote_issue` (`POST /api/issues/{issue_id}/vote`): look up an
existing vote for the pair, then delete it (by its `id` field) and
`$inc: {vote_count: -1}` the issue, or insert a fresh vote and
`$inc: {vote_count: 1}`. -/
def vote_issue (s : State) (issue_id user_id : Id) : VoteResponse × State :=
  match s.votes.find? (fun v => v.issue_id == issue_id && v.user_id == user_id) with
  | some existing_vote =>
    let votes2 := s.votes.eraseP (fun v => v.id == existing_vote.id)
    let issues2 := updateFirst (fun i => i.id == issue_id)
      (fun i => { i with vote_count := i.vote_count - 1 }) s.issues
    ({ success := true, voted := false, message := "Vote removed" },
     { s with votes := votes2, issues := issues2, time := s.time + 1 })
  | none =>
    let vote : VoteDoc :=
      { oid := Id.gen (s.next + 1), id := Id.gen s.next,
        issue_id := issue_id, user_id := user_id, created_at := s.time }
    let issues2 := updateFirst (fun i => i.id == issue_id)
      (fun i => { i with vote_count := i.vote_count + 1 }) s.issues
    ({ success := true, voted := true, message := "Vote added" },
     { s with votes := s.votes ++ [vote], issues := issues2,
              next := s.next + 2, time := s.time + 1 })

/-! ## Comments -/

/-- Response of `POST /api/issues/{issue_id}/comments`. -/
structure CommentResponse where
  success : Bool
  comment : CommentDoc
  message : String
deriving DecidableEq, Repr

/-- Handler `add_comment` (`POST /api/issues/{issue_id}/comments`): the
comment is built from the path `issue_id`, the form `user_id` and the body
message, with no existence validation. -/
def add_comment (s : State) (issue_id : Id) (message : String) (user_id : Id) :
    CommentResponse × State :=
  let comment : CommentDoc :=
    { oid := Id.gen (s.next + 1), id := Id.gen s.next,
      issue_id := issue_id, user_id := user_id, message := message,
      created_at := s.time }
  ({ success := true, comment := { comment with id := comment.oid },
     message := "Comment added" },
   { s with comments := s.comments ++ [comment], next := s.next + 2,
            time := s.time + 1 })

/-- A comment as returned by `get_comments`: `object_id_to_str` plus the
author lookup. -/
structure EnrichedComment where
  id : Id
  issue_id : Id
  user_id : Id
  message : String
  created_at : Nat
  user_name : Option String
deriving DecidableEq, Repr

/-- The `sort("created_at", -1)` order on comments. -/
def commentSortR (a b : CommentDoc) : Prop :=
  b.created_at ≤ a.created_at

instance : DecidableRel commentSortR := fun a b =>
  inferInstanceAs (Decidable (b.created_at ≤ a.created_at))

instance : IsTotal CommentDoc commentSortR :=
  ⟨fun a b => le_total b.created_at a.created_at⟩

instance : IsTrans CommentDoc commentSortR :=
  ⟨fun _ _ _ h1 h2 => le_trans h2 h1⟩

/-- Handler `get_comments` (`GET /api/issues/{issue_id}/comments`):
`find({"issue_id": ...}).sort("created_at", -1).to_list(1000)`, then the
author enrichment loop. -/
def get_comments (s : State) (issue_id : Id) : List EnrichedComment :=
  let comments :=
    ((List.insertionSort commentSortR
        (s.comments.filter (fun c => c.issue_id == issue_id))).take 1000)
  comments.map (fun c =>
    { id := c.oid, issue_id := c.issue_id, user_id := c.user_id,
      message := c.message, created_at := c.created_at,
      user_name := (s.users.find? (fun u => u.id == c.user_id)).map
        (fun u => u.name) })

/-! ## Operation sequences

An `Op` is one inbound API request.  `createIssue` carries the outcome of
the external transcription call; `register` hashing is a parameter of the
interpreter.  Read-only endpoints leave the state unchanged. -/

inductive Op where
  | register (name email password : String) (phone : Option String)
  | login (email password : String)
  | initCategories
  | getCategories
  | createIssue (issue_data : IssueCreate) (user_id : Id)
      (transcription : Except String String)
  | listIssues (lat lng radius : Option ℚ) (category_id : Option Id)
      (limit : Nat)
  | getIssue (issue_id : Id)
  | toggleVote (issue_id user_id : Id)
  | addComment (issue_id : Id) (message : String) (user_id : Id)
  | listComments (issue_id : Id)

/-- State transition of one request. -/
def step (hash : String → String) (s : State) : Op → State
  | .register name email password phone =>
    match register_user s hash name email password phone with
    | .ok (_, s2) => s2
    | .error _ => s
  | .login _ _ => s
  | .initCategories => (init_categories s).2
  | .getCategories => s
  | .createIssue d uid tr => (create_issue s d uid tr).2
  | .listIssues _ _ _ _ _ => s
  | .getIssue _ => s
  | .toggleVote iid uid => (vote_issue s iid uid).2
  | .addComment iid msg uid => (add_comment s iid msg uid).2
  | .listComments _ => s

/-- Run a request sequence from a state. -/
def run (hash : String → String) (s : State) : List Op → State
  | [] => s
  | op :: ops => run hash (step hash s op) ops

/-- A generated id is guessable only after it has been handed out: `gen n`
is available once `n < next`; client-chosen strings always are. -/
def Id.okB (next : Nat) : Id → Bool
  | .gen n => decide (n < next)
  | .raw _ => true

/-- The id arguments of a request only mention identifiers the backend has
already handed out (uuid4 / ObjectId values cannot be guessed in advance). -/
def Op.okB (next : Nat) : Op → Bool
  | .createIssue d uid _ => Id.okB next uid && Id.okB next d.category_id
  | .listIssues _ _ _ cid _ =>
    match cid with
    | some c => Id.okB next c
    | none => true
  | .getIssue iid => Id.okB next iid
  | .toggleVote iid uid => Id.okB next iid && Id.okB next uid
  | .addComment iid _ uid => Id.okB next iid && Id.okB next uid
  | _ => true

/-- Every request of the sequence only mentions already-generated ids,
checked along the run. -/
def seqOk (hash : String → String) (s : State) : List Op → Bool
  | [] => true
  | op :: ops => Op.okB s.next op && seqOk hash (step hash s op) ops

/-- The denormalised-counter invariant: every stored issue's `vote_count`
equals the number of stored votes whose `issue_id` matches the issue's
stored `id` field. -/
def VoteCountInv (s : State) : Prop :=
  ∀ i ∈ s.issues,
    i.vote_count = ((s.votes.countP (fun v => v.issue_id == i.id) : Nat) : Int)

/-- Reachable-state invariant: all stored issue/vote identifiers were
generated before `next`, stored issue ids and vote ids are unique, at most
one vote exists per `(issue_id, user_id)` pair, and the vote counters are
consistent. -/
def Inv (s : State) : Prop :=
  (∀ i ∈ s.issues, Id.okB s.next i.id = true) ∧
  (∀ v ∈ s.votes, Id.okB s.next v.id = true ∧ Id.okB s.next v.issue_id = true) ∧
  (s.issues.map IssueDoc.id).Nodup ∧
  (s.votes.map VoteDoc.id).Nodup ∧
  (s.votes.map (fun v => (v.issue_id, v.user_id))).Nodup ∧
  VoteCountInv s

instance (s : State) : Decidable (VoteCountInv s) :=
  List.decidableBAll _ s.issues

instance (s : State) : Decidable (Inv s) := by
  unfold Inv
  infer_instance

/-- A trivial stand-in for the SHA-256 hex digest, used to instantiate the
interpreter at concrete inputs. -/
def hash0 : String → String := fun p => p

/-- A concrete issue-creation payload. -/
def sampleIssueData : IssueCreate :=
  { title := "Pothole on Main Street",
    description := "Large pothole near the intersection",
    category_id := Id.gen 2, image_base64 := none, voice_base64 := none,
    location_lat := 40.7128, location_long := -74.006, address := none }

/-- A concrete request sequence: register, seed categories, create an
issue, vote on it twice (toggle on and off), vote from a second user. -/
def opsSample : List Op :=
  [Op.register "John Doe" "john@example.com" "securepassword123" none,
   Op.initCategories,
   Op.createIssue sampleIssueData (Id.gen 0) (Except.ok "resp"),
   Op.toggleVote (Id.gen 16) (Id.gen 0),
   Op.toggleVote (Id.gen 16) (Id.gen 0),
   Op.toggleVote (Id.gen 16) (Id.raw "guest")]

/-- A concrete stored issue whose author and category match no stored
user/category. -/
def sampleIssueDoc : IssueDoc :=
  { oid := Id.gen 1, id := Id.gen 0, user_id := Id.raw "u",
    category_id := Id.raw "c", title := "t", description := "d",
    image_base64 := none, voice_base64 := none,
    voice_transcript := none, location_lat := 0,
    location_long := 0, address := none, status := "pending",
    expected_completion := none, actual_completion := none,
    vote_count := 1, created_at := 0, updated_at := 0 }

/-- A concrete reachable-shape state: one issue with one vote on it. -/
def sampleVotedState : State :=
  { users := [], categories := [],
    issues := [sampleIssueDoc],
    votes := [{ oid := Id.gen 3, id := Id.gen 2, issue_id := Id.gen 0,
                user_id := Id.raw "u", created_at := 1 }],
    comments := [], next := 4, time := 2 }

/-- A concrete issue-creation payload with a voice attachment. -/
def sampleVoiceData : IssueCreate :=
  { sampleIssueData with voice_base64 := some "ZmFrZV9hdWRpb19kYXRh" }

/-- A user store already holding the email used by the C8 witness. -/
def sampleUserState : State :=
  { users := [{ oid := Id.gen 1, id := Id.gen 0, name := "n",
                email := "john@example.com", password_hash := "h",
                phone := none, role := "citizen", created_at := 0 }],
    categories := [], issues := [], votes := [], comments := [],
    next := 2, time := 1 }

/-- A store with one issue at latitude/longitude 10 under category
`raw "A"`. -/
def sampleGeoState : State :=
  { users := [], categories := [],
    issues := [{ oid := Id.gen 1, id := Id.gen 0, user_id := Id.raw "u",
                 category_id := Id.raw "A", title := "t", description := "d",
                 image_base64 := none, voice_base64 := none,
                 voice_transcript := none, location_lat := 10,
                 location_long := 10, address := none, status := "pending",
                 expected_completion := none, actual_completion := none,
                 vote_count := 0, created_at := 0, updated_at := 0 }],
    votes := [], comments := [], next := 2, time := 1 }

/-- Output order required of `get_issues`: `vote_count` descending, ties
broken by `created_at` descending. -/
def SortedByVotesCreated (l : List EnrichedIssue) : Prop :=
  l.Pairwise (fun a b => b.vote_count < a.vote_count ∨
    (a.vote_count = b.vote_count ∧ b.created_at ≤ a.created_at))

/-! ## Helper lemmas -/

theorem mem_updateFirst {p : α → Bool} {f : α → α} {x : α} :
    ∀ {l : List α}, x ∈ updateFirst p f l → x ∈ l ∨ ∃ a ∈ l, x = f a := by
  intro l
  induction l with
  | nil => intro h; exact absurd h (List.not_mem_nil x)
  | cons a as ih =>
    intro h
    by_cases hp : p a
    · rw [updateFirst, if_pos hp] at h
      rcases List.mem_cons.mp h with rfl | h2
      · exact Or.inr ⟨a, List.mem_cons_self a as, rfl⟩
      · exact Or.inl (List.mem_cons_of_mem a h2)
    · rw [updateFirst, if_neg hp] at h
      rcases List.mem_cons.mp h with rfl | h2
      · exact Or.inl (List.mem_cons_self x as)
      · rcases ih h2 with h3 | ⟨b, hb, rfl⟩
        · exact Or.inl (List.mem_cons_of_mem a h3)
        · exact Or.inr ⟨b, List.mem_cons_of_mem a hb, rfl⟩

theorem updateFirst_map_of_comp (p : α → Bool) (f : α → α) (g : α → β)
    (h : ∀ a, g (f a) = g a) :
    ∀ l : List α, (updateFirst p f l).map g = l.map g := by
  intro l
  induction l with
  | nil => rfl
  | cons a as ih =>
    by_cases hp : p a
    · rw [updateFirst, if_pos hp, List.map_cons, List.map_cons, h]
    · rw [updateFirst, if_neg hp, List.map_cons, List.map_cons, ih]

theorem Id.okB_mono {m n : Nat} (h : m ≤ n) {x : Id}
    (hx : Id.okB m x = true) : Id.okB n x = true := by
  cases x with
  | gen k => simp only [Id.okB, decide_eq_true_eq] at *; omega
  | raw s => rfl

/-- `Inv` only depends on the issues, the votes and the counter, and is
monotone in the counter. -/
theorem Inv_frame {s s2 : State} (hi : s2.issues = s.issues)
    (hv : s2.votes = s.votes) (hn : s.next ≤ s2.next) (h : Inv s) : Inv s2 := by
  obtain ⟨hIb, hVb, hIn, hVn, hPn, hVC⟩ := h
  refine ⟨?_, ?_, ?_, ?_, ?_, ?_⟩
  · intro i hi2; exact Id.okB_mono hn (hIb i (hi ▸ hi2))
  · intro v hv2
    exact ⟨Id.okB_mono hn (hVb v (hv ▸ hv2)).1, Id.okB_mono hn (hVb v (hv ▸ hv2)).2⟩
  · rw [hi]; exact hIn
  · rw [hv]; exact hVn
  · rw [hv]; exact hPn
  · intro i hi2; rw [hv]; exact hVC i (hi ▸ hi2)

theorem perm_cons_eraseP_vote (v : VoteDoc) :
    ∀ votes : List VoteDoc, v ∈ votes → (votes.map VoteDoc.id).Nodup →
      votes.Perm (v :: votes.eraseP (fun w => w.id == v.id)) := by
  intro votes
  induction votes with
  | nil => intro h _; exact absurd h (List.not_mem_nil v)
  | cons w t ih =>
    intro hmem hnd
    rw [List.map_cons, List.nodup_cons] at hnd
    by_cases hw : (w.id == v.id) = true
    · have hvw : v = w := by
        rcases List.mem_cons.mp hmem with rfl | hvt
        · rfl
        · exact absurd (beq_iff_eq.mp hw ▸ List.mem_map_of_mem VoteDoc.id hvt)
            hnd.1
      rw [List.eraseP_cons_of_pos (p := fun w2 : VoteDoc => w2.id == v.id) hw, hvw]
    · have hvt : v ∈ t := by
        rcases List.mem_cons.mp hmem with rfl | h2
        · exact absurd (by simp) hw
        · exact h2
      rw [List.eraseP_cons_of_neg (p := fun w2 : VoteDoc => w2.id == v.id) hw]
      exact ((ih hvt hnd.2).cons w).trans (List.Perm.swap v w _)

theorem voteCount_updateFirst_inc (v : VoteDoc) (votes : List VoteDoc) :
    ∀ issues : List IssueDoc,
      (issues.map IssueDoc.id).Nodup →
      (∀ i ∈ issues,
        i.vote_count = ((votes.countP (fun w => w.issue_id == i.id) : Nat) : Int)) →
      ∀ i ∈ updateFirst (fun i => i.id == v.issue_id)
          (fun i => { i with vote_count := i.vote_count + 1 }) issues,
        i.vote_count =
          (((votes ++ [v]).countP (fun w => w.issue_id == i.id) : Nat) : Int) := by
  intro issues
  induction issues with
  | nil => intro _ _ i hi; exact absurd hi (List.not_mem_nil i)
  | cons a as ih =>
    intro hnd hvc i hi
    rw [List.map_cons, List.nodup_cons] at hnd
    by_cases hp : (a.id == v.issue_id) = true
    · rw [updateFirst, if_pos hp] at hi
      have hav : a.id = v.issue_id := beq_iff_eq.mp hp
      rcases List.mem_cons.mp hi with rfl | hi2
      · have ha := hvc a (List.mem_cons_self a as)
        simp only [List.countP_append, List.countP_cons, List.countP_nil]
        have hqv : (v.issue_id == a.id) = true := beq_iff_eq.mpr hav.symm
        simp only [hqv, if_true]
        push_cast
        omega
      · have hne : (v.issue_id == i.id) = false := by
          rw [beq_eq_false_iff_ne]
          intro hEq
          exact hnd.1 (hav ▸ hEq ▸ List.mem_map_of_mem IssueDoc.id hi2)
        have hia := hvc i (List.mem_cons_of_mem a hi2)
        simp only [List.countP_append, List.countP_cons, List.countP_nil, hne,
          if_false]
        simpa using hia
    · rw [updateFirst, if_neg hp] at hi
      rcases List.mem_cons.mp hi with rfl | hi2
      · have hne : (v.issue_id == i.id) = false := by
          rw [beq_eq_false_iff_ne]
          intro hEq
          exact hp (beq_iff_eq.mpr hEq.symm)
        have hia := hvc i (List.mem_cons_self i as)
        simp only [List.countP_append, List.countP_cons, List.countP_nil, hne,
          if_false]
        simpa using hia
      · exact ih hnd.2 (fun j hj => hvc j (List.mem_cons_of_mem a hj)) i hi2

theorem voteCount_updateFirst_dec (v : VoteDoc) (votes votes2 : List VoteDoc)
    (hperm : votes.Perm (v :: votes2)) :
    ∀ issues : List IssueDoc,
      (issues.map IssueDoc.id).Nodup →
      (∀ i ∈ issues,
        i.vote_count = ((votes.countP (fun w => w.issue_id == i.id) : Nat) : Int)) →
      ∀ i ∈ updateFirst (fun i => i.id == v.issue_id)
          (fun i => { i with vote_count := i.vote_count - 1 }) issues,
        i.vote_count =
          ((votes2.countP (fun w => w.issue_id == i.id) : Nat) : Int) := by
  intro issues
  induction issues with
  | nil => intro _ _ i hi; exact absurd hi (List.not_mem_nil i)
  | cons a as ih =>
    intro hnd hvc i hi
    rw [List.map_cons, List.nodup_cons] at hnd
    by_cases hp : (a.id == v.issue_id) = true
    · rw [updateFirst, if_pos hp] at hi
      have hav : a.id = v.issue_id := beq_iff_eq.mp hp
      rcases List.mem_cons.mp hi with rfl | hi2
      · have ha := hvc a (List.mem_cons_self a as)
        rw [hperm.countP_eq] at ha
        have hqv : (v.issue_id == a.id) = true := beq_iff_eq.mpr hav.symm
        simp only [List.countP_cons, hqv, if_true] at ha
        push_cast at ha ⊢
        omega
      · have hne : (v.issue_id == i.id) = false := by
          rw [beq_eq_false_iff_ne]
          intro hEq
          exact hnd.1 (hav ▸ hEq ▸ List.mem_map_of_mem IssueDoc.id hi2)
        have hia := hvc i (List.mem_cons_of_mem a hi2)
        rw [hperm.countP_eq] at hia
        simp only [List.countP_cons, hne, if_false] at hia
        simpa using hia
    · rw [updateFirst, if_neg hp] at hi
      rcases List.mem_cons.mp hi with rfl | hi2
      · have hne : (v.issue_id == i.id) = false := by
          rw [beq_eq_false_iff_ne]
          intro hEq
          exact hp (beq_iff_eq.mpr hEq.symm)
        have hia := hvc i (List.mem_cons_self i as)
        rw [hperm.countP_eq] at hia
        simp only [List.countP_cons, hne, if_false] at hia
        simpa using hia
      · exact ih hnd.2 (fun j hj => hvc j (List.mem_cons_of_mem a hj)) i hi2

theorem ne_gen_next_of_okB {next : Nat} {x : Id} (h : Id.okB next x = true) :
    x ≠ Id.gen next := by
  cases x with
  | gen m =>
    simp only [Id.okB, decide_eq_true_eq] at h
    intro hEq
    injection hEq with h2
    omega
  | raw s => intro hEq; exact Id.noConfusion hEq

/-- The state produced by `create_issue`: the store with one issue appended,
fresh ids consumed and the clock advanced. -/
theorem create_issue_snd (s : State) (d : IssueCreate) (uid : Id)
    (tr : Except String String) :
    ∃ doc : IssueDoc, doc.id = Id.gen s.next ∧ doc.vote_count = 0 ∧
      (create_issue s d uid tr).2 =
        { s with issues := s.issues ++ [doc], next := s.next + 2,
                 time := s.time + 1 } :=
  ⟨_, rfl, rfl, rfl⟩

/-- Each single request preserves the reachable-state invariant, provided
the request only mentions already-generated ids. -/
theorem inv_step (hash : String → String) (s : State) (op : Op)
    (hinv : Inv s) (hop : Op.okB s.next op = true) : Inv (step hash s op) := by
  obtain ⟨hIb, hVb, hIn, hVn, hPn, hVC⟩ := hinv
  cases op with
  | login e p => exact ⟨hIb, hVb, hIn, hVn, hPn, hVC⟩
  | getCategories => exact ⟨hIb, hVb, hIn, hVn, hPn, hVC⟩
  | listIssues lat lng radius cid limit => exact ⟨hIb, hVb, hIn, hVn, hPn, hVC⟩
  | getIssue iid => exact ⟨hIb, hVb, hIn, hVn, hPn, hVC⟩
  | listComments iid => exact ⟨hIb, hVb, hIn, hVn, hPn, hVC⟩
  | register name email password phone =>
    cases hf : s.users.find? (fun u => u.email == email) with
    | some u =>
      have hs : step hash s (.register name email password phone) = s := by
        simp [step, register_user, hf]
      rw [hs]
      exact ⟨hIb, hVb, hIn, hVn, hPn, hVC⟩
    | none =>
      refine Inv_frame ?_ ?_ ?_ ⟨hIb, hVb, hIn, hVn, hPn, hVC⟩
      · simp [step, register_user, hf]
      · simp [step, register_user, hf]
      · simp [step, register_user, hf]
  | initCategories =>
    refine Inv_frame ?_ ?_ ?_ ⟨hIb, hVb, hIn, hVn, hPn, hVC⟩
    · rfl
    · rfl
    · show s.next ≤ s.next + 2 + 2 + 2 + 2 + 2 + 2 + 2
      omega
  | addComment iid msg uid =>
    refine Inv_frame ?_ ?_ ?_ ⟨hIb, hVb, hIn, hVn, hPn, hVC⟩
    · rfl
    · rfl
    · show s.next ≤ s.next + 2
      omega
  | createIssue d uid tr =>
    obtain ⟨doc, hdocid, hdocvc, hstate⟩ := create_issue_snd s d uid tr
    show Inv (create_issue s d uid tr).2
    rw [hstate]
    refine ⟨?_, ?_, ?_, ?_, ?_, ?_⟩
    · intro i hi2
      rcases List.mem_append.mp hi2 with h2 | h2
      · exact Id.okB_mono (Nat.le_add_right s.next 2) (hIb i h2)
      · rw [List.mem_singleton.mp h2, hdocid]
        show Id.okB (s.next + 2) (Id.gen s.next) = true
        simp only [Id.okB, decide_eq_true_eq]
        omega
    · intro v hv2
      exact ⟨Id.okB_mono (Nat.le_add_right s.next 2) (hVb v hv2).1,
             Id.okB_mono (Nat.le_add_right s.next 2) (hVb v hv2).2⟩
    · rw [List.map_append, List.nodup_append]
      refine ⟨hIn, by simp, ?_⟩
      intro x hx hx2
      simp only [List.map_cons, List.map_nil, List.mem_singleton] at hx2
      obtain ⟨i, hi2, rfl⟩ := List.mem_map.mp hx
      exact ne_gen_next_of_okB (hIb i hi2) (hx2.trans hdocid)
    · exact hVn
    · exact hPn
    · intro i hi2
      rcases List.mem_append.mp hi2 with h2 | h2
      · exact hVC i h2
      · rw [List.mem_singleton.mp h2, hdocvc, hdocid]
        have hz : s.votes.countP (fun v => v.issue_id == Id.gen s.next) = 0 := by
          rw [List.countP_eq_zero]
          intro v hv2
          simp only [beq_iff_eq]
          exact ne_gen_next_of_okB (hVb v hv2).2
        rw [hz]
        rfl
  | toggleVote iid uid =>
    simp only [Op.okB, Bool.and_eq_true] at hop
    cases hf : s.votes.find? (fun v => v.issue_id == iid && v.user_id == uid) with
    | some v =>
      have hv_mem : v ∈ s.votes := List.mem_of_find?_eq_some hf
      have hfprop := List.find?_some hf
      rw [Bool.and_eq_true, beq_iff_eq, beq_iff_eq] at hfprop
      obtain ⟨hvi, hvu⟩ := hfprop
      have hstate : step hash s (.toggleVote iid uid) =
          { s with
            votes := s.votes.eraseP (fun w => w.id == v.id),
            issues := updateFirst (fun i => i.id == iid)
              (fun i => { i with vote_count := i.vote_count - 1 }) s.issues,
            time := s.time + 1 } := by
        simp [step, vote_issue, hf]
      rw [hstate]
      refine ⟨?_, ?_, ?_, ?_, ?_, ?_⟩
      · intro i hi2
        rcases mem_updateFirst hi2 with h2 | ⟨a, ha, rfl⟩
        · exact hIb i h2
        · exact hIb a ha
      · intro w hw2
        exact hVb w ((List.eraseP_sublist s.votes).subset hw2)
      · rw [updateFirst_map_of_comp (fun i => i.id == iid)
          (fun i => { i with vote_count := i.vote_count - 1 }) IssueDoc.id
          (fun a => rfl)]
        exact hIn
      · exact List.Nodup.sublist ((List.eraseP_sublist s.votes).map VoteDoc.id) hVn
      · exact List.Nodup.sublist
          ((List.eraseP_sublist s.votes).map (fun v => (v.issue_id, v.user_id))) hPn
      · have hperm := perm_cons_eraseP_vote v s.votes hv_mem hVn
        have hres := voteCount_updateFirst_dec v s.votes
          (s.votes.eraseP (fun w => w.id == v.id)) hperm s.issues hIn hVC
        rw [hvi] at hres
        exact hres
    | none =>
      have hnone := List.find?_eq_none.mp hf
      have hstate : step hash s (.toggleVote iid uid) =
          { s with
            votes := s.votes ++
              [{ oid := Id.gen (s.next + 1), id := Id.gen s.next,
                 issue_id := iid, user_id := uid, created_at := s.time }],
            issues := updateFirst (fun i => i.id == iid)
              (fun i => { i with vote_count := i.vote_count + 1 }) s.issues,
            next := s.next + 2, time := s.time + 1 } := by
        simp [step, vote_issue, hf]
      rw [hstate]
      refine ⟨?_, ?_, ?_, ?_, ?_, ?_⟩
      · intro i hi2
        rcases mem_updateFirst hi2 with h2 | ⟨a, ha, rfl⟩
        · exact Id.okB_mono (Nat.le_add_right s.next 2) (hIb i h2)
        · exact Id.okB_mono (Nat.le_add_right s.next 2) (hIb a ha)
      · intro w hw2
        rcases List.mem_append.mp hw2 with h2 | h2
        · exact ⟨Id.okB_mono (Nat.le_add_right s.next 2) (hVb w h2).1,
                 Id.okB_mono (Nat.le_add_right s.next 2) (hVb w h2).2⟩
        · rw [List.mem_singleton.mp h2]
          refine ⟨?_, Id.okB_mono (Nat.le_add_right s.next 2) hop.1⟩
          show Id.okB (s.next + 2) (Id.gen s.next) = true
          simp only [Id.okB, decide_eq_true_eq]
          omega
      · rw [updateFirst_map_of_comp (fun i => i.id == iid)
          (fun i => { i with vote_count := i.vote_count + 1 }) IssueDoc.id
          (fun a => rfl)]
        exact hIn
      · rw [List.map_append, List.nodup_append]
        refine ⟨hVn, by simp, ?_⟩
        intro x hx hx2
        simp only [List.map_cons, List.map_nil, List.mem_singleton] at hx2
        obtain ⟨w, hw2, rfl⟩ := List.mem_map.mp hx
        exact ne_gen_next_of_okB (hVb w hw2).1 hx2
      · rw [List.map_append, List.nodup_append]
        refine ⟨hPn, by simp, ?_⟩
        intro x hx hx2
        simp only [List.map_cons, List.map_nil, List.mem_singleton] at hx2
        obtain ⟨w, hw2, rfl⟩ := List.mem_map.mp hx
        have : w.issue_id = iid ∧ w.user_id = uid := by
          constructor
          · exact congrArg Prod.fst hx2
          · exact congrArg Prod.snd hx2
        have hbad := hnone w hw2
        rw [Bool.and_eq_true, beq_iff_eq, beq_iff_eq] at hbad
        exact hbad ⟨this.1, this.2⟩
      · exact voteCount_updateFirst_inc
          { oid := Id.gen (s.next + 1), id := Id.gen s.next,
            issue_id := iid, user_id := uid, created_at := s.time }
          s.votes s.issues hIn hVC

theorem Inv_empty : Inv State.empty := by
  refine ⟨?_, ?_, ?_, ?_, ?_, ?_⟩ <;>
    simp [State.empty, Inv, VoteCountInv]

theorem inv_run (hash : String → String) :
    ∀ (ops : List Op) (s : State), Inv s → seqOk hash s ops = true →
      Inv (run hash s ops)
  | [], _, h, _ => h
  | op :: ops, s, h, hseq => by
    rw [seqOk, Bool.and_eq_true] at hseq
    exact inv_run hash ops (step hash s op) (inv_step hash s op h hseq.1) hseq.2

/-- C1: for every sequence of operations executed sequentially from an
empty store (each request mentioning only identifiers the backend has
already handed out — uuid4/ObjectId values cannot be guessed in advance),
every stored issue's `vote_count` equals the number of stored votes whose
`issue_id` equals that issue's stored `id` field.  Quantifying over all
sequences covers the state after each prefix. -/
theorem vote_count_matches_votes (hash : String → String) (ops : List Op)
    (h : seqOk hash State.empty ops = true) :
    ∀ i ∈ (run hash State.empty ops).issues,
      i.vote_count =
        (((run hash State.empty ops).votes.countP
          (fun v => v.issue_id == i.id) : Nat) : Int) :=
  (inv_run hash ops State.empty Inv_empty h).2.2.2.2.2

/-- Witness for C1 at the concrete request sequence `opsSample`. -/
theorem vote_count_matches_votes_witness :
    seqOk hash0 State.empty opsSample = true ∧
    ∀ i ∈ (run hash0 State.empty opsSample).issues,
      i.vote_count =
        (((run hash0 State.empty opsSample).votes.countP
          (fun v => v.issue_id == i.id) : Nat) : Int) :=
  ⟨by decide, vote_count_matches_votes hash0 opsSample (by decide)⟩

/-! ## Lemmas for the toggle-vote claim -/

theorem find?_append_of_none {p : α → Bool} {l1 : List α}
    (h : l1.find? p = none) (l2 : List α) :
    (l1 ++ l2).find? p = l2.find? p := by
  induction l1 with
  | nil => rfl
  | cons a t ih =>
    by_cases hp : p a
    · rw [List.find?_cons_of_pos _ hp] at h
      exact absurd h (by simp)
    · rw [List.find?_cons_of_neg _ hp] at h
      rw [List.cons_append, List.find?_cons_of_neg _ hp]
      exact ih h

theorem eraseP_append_of_forall_not {p : α → Bool} {l1 : List α}
    (h : ∀ a ∈ l1, ¬ p a = true) (l2 : List α) :
    (l1 ++ l2).eraseP p = l1 ++ l2.eraseP p := by
  induction l1 with
  | nil => rfl
  | cons a t ih =>
    rw [List.cons_append, List.eraseP_cons_of_neg (h a (List.mem_cons_self a t)),
      List.cons_append, ih (fun b hb => h b (List.mem_cons_of_mem a hb))]

/-- Erasing the vote found for a pair by its `id` field equals erasing the
first vote matching the pair, when stored vote ids are unique. -/
theorem eraseP_found_id (iid uid : Id) :
    ∀ (votes : List VoteDoc) (v : VoteDoc),
      votes.find? (fun w => w.issue_id == iid && w.user_id == uid) = some v →
      (votes.map VoteDoc.id).Nodup →
      votes.eraseP (fun w => w.id == v.id) =
        votes.eraseP (fun w => w.issue_id == iid && w.user_id == uid) := by
  intro votes
  induction votes with
  | nil => intro v hf _; exact absurd hf (by simp)
  | cons a t ih =>
    intro v hf hnd
    rw [List.map_cons, List.nodup_cons] at hnd
    by_cases hp : (a.issue_id == iid && a.user_id == uid) = true
    · rw [List.find?_cons_of_pos
            (p := fun w : VoteDoc => w.issue_id == iid && w.user_id == uid) _ hp,
          Option.some.injEq] at hf
      rw [List.eraseP_cons_of_pos (p := fun w : VoteDoc => w.id == v.id)
            (by rw [← hf]; exact beq_self_eq_true a.id),
          List.eraseP_cons_of_pos
            (p := fun w : VoteDoc => w.issue_id == iid && w.user_id == uid) hp]
    · rw [List.find?_cons_of_neg
            (p := fun w : VoteDoc => w.issue_id == iid && w.user_id == uid) _ hp] at hf
      have hvt : v ∈ t := List.mem_of_find?_eq_some hf
      have hav : ¬ (a.id == v.id) = true := by
        simp only [beq_iff_eq]
        intro hEq
        exact hnd.1 (hEq ▸ List.mem_map_of_mem VoteDoc.id hvt)
      rw [List.eraseP_cons_of_neg (p := fun w : VoteDoc => w.id == v.id) hav,
          List.eraseP_cons_of_neg
            (p := fun w : VoteDoc => w.issue_id == iid && w.user_id == uid) hp,
          ih v hf hnd.2]

/-- When stored issue ids are unique, `update_one` on the id field hits the
match: the updated copy of `j` is in the result. -/
theorem updateFirst_mem_of_nodup :
    ∀ {l : List IssueDoc}, (l.map IssueDoc.id).Nodup →
      ∀ {j : IssueDoc}, j ∈ l → ∀ {iid : Id}, j.id = iid →
        ∀ f : IssueDoc → IssueDoc,
          f j ∈ updateFirst (fun i => i.id == iid) f l := by
  intro l
  induction l with
  | nil => intro _ j hj; exact absurd hj (List.not_mem_nil j)
  | cons a t ih =>
    intro hnd j hj iid hjid f
    rw [List.map_cons, List.nodup_cons] at hnd
    by_cases hp : (a.id == iid) = true
    · have hja : j = a := by
        rcases List.mem_cons.mp hj with rfl | hjt
        · rfl
        · exact absurd ((beq_iff_eq.mp hp).trans hjid.symm ▸
            List.mem_map_of_mem IssueDoc.id hjt) hnd.1
      rw [updateFirst, if_pos hp, hja]
      exact List.mem_cons_self (f a) t
    · have hjt : j ∈ t := by
        rcases List.mem_cons.mp hj with rfl | hjt
        · exact absurd (beq_iff_eq.mpr hjid) hp
        · exact hjt
      rw [updateFirst, if_neg hp]
      exact List.mem_cons_of_mem a (ih hnd.2 hjt hjid f)

/-- Incrementing then decrementing the counter of the first matching issue
restores the list. -/
theorem updateFirst_dec_inc (iid : Id) :
    ∀ l : List IssueDoc,
      updateFirst (fun i => i.id == iid)
        (fun i => { i with vote_count := i.vote_count - 1 })
        (updateFirst (fun i => i.id == iid)
          (fun i => { i with vote_count := i.vote_count + 1 }) l) = l := by
  intro l
  induction l with
  | nil => rfl
  | cons a t ih =>
    by_cases hp : (a.id == iid) = true
    · rw [updateFirst, if_pos hp, updateFirst, if_pos hp]
      have hvc : a.vote_count + 1 - 1 = a.vote_count := by omega
      rw [hvc]
    · rw [updateFirst, if_neg hp, updateFirst, if_neg hp, ih]

/-- Equation for `vote_issue` when a vote for the pair exists. -/
theorem vote_issue_eq_some (s : State) (iid uid : Id) (v : VoteDoc)
    (hf : s.votes.find? (fun w => w.issue_id == iid && w.user_id == uid) =
      some v) :
    vote_issue s iid uid =
      ({ success := true, voted := false, message := "Vote removed" },
       { s with votes := s.votes.eraseP (fun w => w.id == v.id),
                issues := updateFirst (fun i => i.id == iid)
                  (fun i => { i with vote_count := i.vote_count - 1 })
                  s.issues,
                time := s.time + 1 }) := by
  simp [vote_issue, hf]

/-- Equation for `vote_issue` when no vote for the pair exists. -/
theorem vote_issue_eq_none (s : State) (iid uid : Id)
    (hf : s.votes.find? (fun w => w.issue_id == iid && w.user_id == uid) =
      none) :
    vote_issue s iid uid =
      ({ success := true, voted := true, message := "Vote added" },
       { s with
         votes := s.votes ++
           [{ oid := Id.gen (s.next + 1), id := Id.gen s.next,
              issue_id := iid, user_id := uid, created_at := s.time }],
         issues := updateFirst (fun i => i.id == iid)
           (fun i => { i with vote_count := i.vote_count + 1 }) s.issues,
         next := s.next + 2, time := s.time + 1 }) := by
  simp [vote_issue, hf]

/-- C2: `toggle_vote` behaves as a toggle on states satisfying the
reachable-state invariant: when a vote for the pair exists it is deleted,
the issue's counter is decremented and `voted = false` is returned;
otherwise a vote for the pair is inserted, the counter incremented and
`voted = true` returned; and two successive toggles return `true` then
`false` and restore both the vote set and every issue's counter. -/
theorem toggle_vote_toggles (s : State) (iid uid : Id) (h : Inv s) :
    ((∃ v ∈ s.votes, v.issue_id = iid ∧ v.user_id = uid) →
      (vote_issue s iid uid).1.voted = false ∧
      (vote_issue s iid uid).2.votes =
        s.votes.eraseP (fun v => v.issue_id == iid && v.user_id == uid) ∧
      ∀ j ∈ s.issues, j.id = iid →
        ∃ j2 ∈ (vote_issue s iid uid).2.issues,
          j2.id = iid ∧ j2.vote_count = j.vote_count - 1) ∧
    ((¬ ∃ v ∈ s.votes, v.issue_id = iid ∧ v.user_id = uid) →
      (vote_issue s iid uid).1.voted = true ∧
      (∃ v2 : VoteDoc, (vote_issue s iid uid).2.votes = s.votes ++ [v2] ∧
        v2.issue_id = iid ∧ v2.user_id = uid) ∧
      ∀ j ∈ s.issues, j.id = iid →
        ∃ j2 ∈ (vote_issue s iid uid).2.issues,
          j2.id = iid ∧ j2.vote_count = j.vote_count + 1) ∧
    ((¬ ∃ v ∈ s.votes, v.issue_id = iid ∧ v.user_id = uid) →
      (vote_issue s iid uid).1.voted = true ∧
      (vote_issue (vote_issue s iid uid).2 iid uid).1.voted = false ∧
      (vote_issue (vote_issue s iid uid).2 iid uid).2.votes = s.votes ∧
      (vote_issue (vote_issue s iid uid).2 iid uid).2.issues = s.issues) := by
  obtain ⟨hIb, hVb, hIn, hVn, hPn, hVC⟩ := h
  have hfn : (¬ ∃ v ∈ s.votes, v.issue_id = iid ∧ v.user_id = uid) →
      s.votes.find? (fun v => v.issue_id == iid && v.user_id == uid) = none := by
    intro hnex
    rw [List.find?_eq_none]
    intro v hv hp
    rw [Bool.and_eq_true, beq_iff_eq, beq_iff_eq] at hp
    exact hnex ⟨v, hv, hp.1, hp.2⟩
  refine ⟨?_, ?_, ?_⟩
  · intro hex
    cases hf : s.votes.find? (fun v => v.issue_id == iid && v.user_id == uid) with
    | none =>
      obtain ⟨v, hv, h1, h2⟩ := hex
      exact absurd (by simp [h1, h2] : (fun v => v.issue_id == iid &&
        v.user_id == uid) v = true) (List.find?_eq_none.mp hf v hv)
    | some v =>
      refine ⟨by simp [vote_issue, hf], ?_, ?_⟩
      · have hv2 : (vote_issue s iid uid).2.votes =
            s.votes.eraseP (fun w => w.id == v.id) := by
          simp [vote_issue, hf]
        rw [hv2]
        exact eraseP_found_id iid uid s.votes v hf hVn
      · intro j hj hjid
        refine ⟨{ j with vote_count := j.vote_count - 1 }, ?_, hjid, rfl⟩
        have hi2 : (vote_issue s iid uid).2.issues =
            updateFirst (fun i => i.id == iid)
              (fun i => { i with vote_count := i.vote_count - 1 }) s.issues := by
          simp [vote_issue, hf]
        rw [hi2]
        exact updateFirst_mem_of_nodup hIn hj hjid _
  · intro hnex
    have hf := hfn hnex
    refine ⟨by simp [vote_issue, hf], ?_, ?_⟩
    · refine ⟨{ oid := Id.gen (s.next + 1), id := Id.gen s.next,
                issue_id := iid, user_id := uid, created_at := s.time },
              ?_, rfl, rfl⟩
      simp [vote_issue, hf]
    · intro j hj hjid
      refine ⟨{ j with vote_count := j.vote_count + 1 }, ?_, hjid, rfl⟩
      have hi2 : (vote_issue s iid uid).2.issues =
          updateFirst (fun i => i.id == iid)
            (fun i => { i with vote_count := i.vote_count + 1 }) s.issues := by
        simp [vote_issue, hf]
      rw [hi2]
      exact updateFirst_mem_of_nodup hIn hj hjid _
  · intro hnex
    have hf := hfn hnex
    have hs1 : (vote_issue s iid uid).2 =
        { s with
          votes := s.votes ++
            [{ oid := Id.gen (s.next + 1), id := Id.gen s.next,
               issue_id := iid, user_id := uid, created_at := s.time }],
          issues := updateFirst (fun i => i.id == iid)
            (fun i => { i with vote_count := i.vote_count + 1 }) s.issues,
          next := s.next + 2, time := s.time + 1 } := by
      simp [vote_issue, hf]
    have hff : (vote_issue s iid uid).2.votes.find?
        (fun v => v.issue_id == iid && v.user_id == uid) =
        some { oid := Id.gen (s.next + 1), id := Id.gen s.next,
               issue_id := iid, user_id := uid, created_at := s.time } := by
      rw [hs1]
      show (s.votes ++ [_]).find? _ = _
      rw [find?_append_of_none hf]
      exact List.find?_cons_of_pos _ (by simp)
    refine ⟨by simp [vote_issue, hf],
            by rw [vote_issue_eq_some _ _ _ _ hff], ?_, ?_⟩
    · have he : (vote_issue (vote_issue s iid uid).2 iid uid).2.votes =
          (vote_issue s iid uid).2.votes.eraseP
            (fun w => w.id == Id.gen s.next) := by
        rw [vote_issue_eq_some _ _ _ _ hff]
      rw [he, hs1]
      show (s.votes ++ [_]).eraseP _ = s.votes
      rw [eraseP_append_of_forall_not
            (fun w hw => by
              simp only [beq_iff_eq]
              exact ne_gen_next_of_okB (hVb w hw).1)]
      rw [List.eraseP_cons_of_pos (by simp)]
      exact List.append_nil s.votes
    · have he : (vote_issue (vote_issue s iid uid).2 iid uid).2.issues =
          updateFirst (fun i => i.id == iid)
            (fun i => { i with vote_count := i.vote_count - 1 })
            (vote_issue s iid uid).2.issues := by
        rw [vote_issue_eq_some _ _ _ _ hff]
      rw [he, hs1]
      exact updateFirst_dec_inc iid s.issues

/-- Witness for C2: on `sampleVotedState` the existing vote toggles off. -/
theorem toggle_vote_toggles_witness :
    Inv sampleVotedState ∧
    (∃ v ∈ sampleVotedState.votes, v.issue_id = Id.gen 0 ∧
      v.user_id = Id.raw "u") ∧
    (vote_issue sampleVotedState (Id.gen 0) (Id.raw "u")).1.voted = false :=
  ⟨by decide, by decide,
   ((toggle_vote_toggles sampleVotedState (Id.gen 0) (Id.raw "u")
      (by decide)).1 (by decide)).1⟩

/-- C3: evaluation of create-then-get at a concrete input.  Creation
succeeds, but the `id` in the response payload is the store-native ObjectId
string (`Id.gen 1`), while the stored `id` field is the uuid (`Id.gen 0`);
`get` looks the `id` field up, so the returned id yields 404 and only the
stored uuid retrieves the issue (with `vote_count = 0`,
`status = "pending"`). -/
theorem create_then_get_divergence :
    (create_issue State.empty sampleIssueData (Id.raw "u")
      (Except.ok "r")).1.success = true ∧
    (create_issue State.empty sampleIssueData (Id.raw "u")
      (Except.ok "r")).1.issue.id = Id.gen 1 ∧
    get_issue (create_issue State.empty sampleIssueData (Id.raw "u")
        (Except.ok "r")).2
      (create_issue State.empty sampleIssueData (Id.raw "u")
        (Except.ok "r")).1.issue.id =
      Except.error ⟨404, "Issue not found"⟩ ∧
    (∃ doc ∈ (create_issue State.empty sampleIssueData (Id.raw "u")
        (Except.ok "r")).2.issues, doc.id = Id.gen 0) ∧
    (get_issue (create_issue State.empty sampleIssueData (Id.raw "u")
        (Except.ok "r")).2 (Id.gen 0)).toOption.map
      (fun e => (e.vote_count, e.status)) = some ((0 : Int), "pending") := by
  refine ⟨rfl, rfl, rfl, ⟨_, List.mem_singleton.mpr rfl, rfl⟩, rfl⟩

/-- C5: two `get_issues` calls on the same store differing only in the
`radius` parameter return identical results: `radius` never influences the
output. -/
theorem radius_never_influences (s : State) (lat lng r1 r2 : Option ℚ)
    (category_id : Option Id) (limit : Nat) :
    get_issues s lat lng r1 category_id limit =
      get_issues s lat lng r2 category_id limit := rfl

/-- C6: when the request carries a (truthy) voice attachment and the
external transcription call fails with any error, `create_issue` still
succeeds (the handler is total and reports success), the issue is
persisted, and both the stored and the returned `voice_transcript` are the
fixed fallback string. -/
theorem transcription_failure_fallback (s : State) (d : IssueCreate)
    (uid : Id) (err : String) (hv : strOptTruthy d.voice_base64 = true) :
    (create_issue s d uid (Except.error err)).1.success = true ∧
    (∃ doc : IssueDoc,
      (create_issue s d uid (Except.error err)).2.issues = s.issues ++ [doc] ∧
      doc.voice_transcript =
        some "Voice note recorded (transcription failed)") ∧
    (create_issue s d uid (Except.error err)).1.issue.voice_transcript =
      some "Voice note recorded (transcription failed)" := by
  refine ⟨rfl, ⟨_, rfl, ?_⟩, ?_⟩ <;>
    simp [create_issue, hv, transcribe_audio]

/-- Witness for C6 at a concrete voice-carrying request whose transcription
call fails. -/
theorem transcription_failure_fallback_witness :
    strOptTruthy sampleVoiceData.voice_base64 = true ∧
    (create_issue State.empty sampleVoiceData (Id.raw "u")
      (Except.error "boom")).1.success = true :=
  ⟨by decide,
   (transcription_failure_fallback State.empty sampleVoiceData (Id.raw "u")
     "boom" (by decide)).1⟩

/-- C7: after `init_categories` on any prior state (in particular after a
previous `init_categories`) the category collection holds exactly seven
categories whose names are exactly the fixed seed list, with no
duplicates; a second call leaves the same name list. -/
theorem init_categories_resets (s : State) :
    (init_categories s).2.categories.map CategoryDoc.name =
      ["Roads & Transportation", "Water & Sanitation", "Electricity",
       "Waste Management", "Public Safety", "Parks & Recreation", "Other"] ∧
    (init_categories s).2.categories.length = 7 ∧
    ((init_categories s).2.categories.map CategoryDoc.name).Nodup ∧
    (init_categories (init_categories s).2).2.categories.map
        CategoryDoc.name =
      (init_categories s).2.categories.map CategoryDoc.name := by
  refine ⟨?_, ?_, ?_, ?_⟩ <;>
    simp [init_categories, insertCategory, defaultCategories]

/-- Equation for `register_user` when no user has the email. -/
theorem register_user_eq_none (s : State) (hash : String → String)
    (name email password : String) (phone : Option String)
    (hf : s.users.find? (fun u => u.email == email) = none) :
    register_user s hash name email password phone =
      Except.ok
        ({ success := true,
           user := { oid := Id.gen (s.next + 1), id := Id.gen (s.next + 1),
                     name := name, email := email,
                     password_hash := hash password, phone := phone,
                     role := "citizen", created_at := s.time },
           message := "User registered successfully" },
         { s with
           users := s.users ++
             [{ oid := Id.gen (s.next + 1), id := Id.gen s.next,
                name := name, email := email,
                password_hash := hash password, phone := phone,
                role := "citizen", created_at := s.time }],
           next := s.next + 2, time := s.time + 1 }) := by
  simp [register_user, hf]

/-- C8: registration fails with 400 "Email already registered" exactly when
a stored user already has that email, and succeeds otherwise, appending the
new user; registering the same email twice from a state without it makes
the first call succeed and the second fail, leaving exactly one user with
that email. -/
theorem register_duplicate_email (s : State) (hash : String → String)
    (name email password : String) (phone : Option String) :
    ((∃ u ∈ s.users, u.email = email) →
      register_user s hash name email password phone =
        Except.error ⟨400, "Email already registered"⟩) ∧
    ((¬ ∃ u ∈ s.users, u.email = email) →
      ∃ resp s2, register_user s hash name email password phone =
          Except.ok (resp, s2) ∧ resp.success = true ∧
        (∃ nu : UserDoc, s2.users = s.users ++ [nu] ∧ nu.email = email) ∧
        register_user s2 hash name email password phone =
          Except.error ⟨400, "Email already registered"⟩ ∧
        s2.users.countP (fun u => u.email == email) = 1) := by
  have hdup : ∀ s2 : State, (∃ u ∈ s2.users, u.email = email) →
      register_user s2 hash name email password phone =
        Except.error ⟨400, "Email already registered"⟩ := by
    intro s2 hex
    cases hf : s2.users.find? (fun u => u.email == email) with
    | none =>
      obtain ⟨u, hu, he⟩ := hex
      exact absurd (by simp [he] :
          ((fun u : UserDoc => u.email == email) u) = true)
        (List.find?_eq_none.mp hf u hu)
    | some u => simp [register_user, hf]
  refine ⟨hdup s, ?_⟩
  intro hnex
  have hf : s.users.find? (fun u => u.email == email) = none := by
    rw [List.find?_eq_none]
    intro u hu hp
    exact hnex ⟨u, hu, by simpa using hp⟩
  have h0 : s.users.countP (fun u => u.email == email) = 0 := by
    rw [List.countP_eq_zero]
    intro u hu hp
    exact hnex ⟨u, hu, by simpa using hp⟩
  refine ⟨_, _, register_user_eq_none s hash name email password phone hf,
    rfl, ⟨_, rfl, rfl⟩,
    hdup _ ⟨_, List.mem_append.mpr (Or.inr (List.mem_singleton.mpr rfl)),
      rfl⟩, ?_⟩
  simp [List.countP_append, h0]

/-- Witness for C8: registering an email that is already stored fails. -/
theorem register_duplicate_email_witness :
    (∃ u ∈ sampleUserState.users, u.email = "john@example.com") ∧
    register_user sampleUserState hash0 "Jane" "john@example.com" "pw" none =
      Except.error ⟨400, "Email already registered"⟩ :=
  ⟨by decide,
   (register_duplicate_email sampleUserState hash0 "Jane" "john@example.com"
     "pw" none).1 (by decide)⟩

/-- C9 as stated is refuted: `add_comment` validates nothing, so a comment
stored under an issue id matching no issue makes the comment listing for
that id non-empty, although `get` on the same id returns 404. -/
theorem comments_for_unknown_issue_nonempty :
    (∀ i ∈ (add_comment State.empty (Id.raw "ghost") "hi"
        (Id.raw "u")).2.issues, i.id ≠ Id.raw "ghost") ∧
    get_issue (add_comment State.empty (Id.raw "ghost") "hi" (Id.raw "u")).2
      (Id.raw "ghost") = Except.error ⟨404, "Issue not found"⟩ ∧
    get_comments (add_comment State.empty (Id.raw "ghost") "hi"
      (Id.raw "u")).2 (Id.raw "ghost") ≠ [] := by
  refine ⟨?_, rfl, ?_⟩
  · intro i hi
    exact absurd hi (List.not_mem_nil i)
  · decide

/-- C9 amended: `get` on an issue id matching no stored issue fails with
404 "Issue not found"; listing comments for that id never fails (the
handler is total) and returns the empty list whenever no stored comment
carries that issue id. -/
theorem unknown_issue_get_404_comments_empty (s : State) (iid : Id)
    (h : ∀ i ∈ s.issues, i.id ≠ iid) :
    get_issue s iid = Except.error ⟨404, "Issue not found"⟩ ∧
    ((∀ c ∈ s.comments, c.issue_id ≠ iid) → get_comments s iid = []) := by
  constructor
  · have hf : s.issues.find? (fun i => i.id == iid) = none := by
      rw [List.find?_eq_none]
      intro i hi
      simpa using h i hi
    simp [get_issue, hf]
  · intro hc
    have hfil : s.comments.filter (fun c => c.issue_id == iid) = [] := by
      rw [List.filter_eq_nil_iff]
      intro c hc2
      simpa using hc c hc2
    simp [get_comments, hfil, List.insertionSort]

/-- Witness for the amended C9 at a concrete unknown id on the empty
store. -/
theorem unknown_issue_get_404_comments_empty_witness :
    (∀ i ∈ State.empty.issues, i.id ≠ Id.raw "nope") ∧
    get_issue State.empty (Id.raw "nope") =
      Except.error ⟨404, "Issue not found"⟩ ∧
    ((∀ c ∈ State.empty.comments, c.issue_id ≠ Id.raw "nope") →
      get_comments State.empty (Id.raw "nope") = []) :=
  ⟨by decide,
   (unknown_issue_get_404_comments_empty State.empty (Id.raw "nope")
     (by decide)).1,
   (unknown_issue_get_404_comments_empty State.empty (Id.raw "nope")
     (by decide)).2⟩

/-- When stored issue ids are unique, `find_one` on the id field returns
the member carrying that id. -/
theorem find?_id_eq_of_nodup :
    ∀ {l : List IssueDoc}, (l.map IssueDoc.id).Nodup →
      ∀ {i : IssueDoc}, i ∈ l → ∀ {iid : Id}, i.id = iid →
        l.find? (fun j => j.id == iid) = some i := by
  intro l
  induction l with
  | nil => intro _ i hi; exact absurd hi (List.not_mem_nil i)
  | cons a t ih =>
    intro hnd i hi iid hid
    rw [List.map_cons, List.nodup_cons] at hnd
    by_cases hp : (a.id == iid) = true
    · have hia : i = a := by
        rcases List.mem_cons.mp hi with rfl | hit
        · rfl
        · exact absurd ((beq_iff_eq.mp hp).trans hid.symm ▸
            List.mem_map_of_mem IssueDoc.id hit) hnd.1
      rw [List.find?_cons_of_pos (p := fun j : IssueDoc => j.id == iid) _ hp, hia]
    · have hit : i ∈ t := by
        rcases List.mem_cons.mp hi with rfl | hit
        · exact absurd (beq_iff_eq.mpr hid) hp
        · exact hit
      rw [List.find?_cons_of_neg (p := fun j : IssueDoc => j.id == iid) _ hp]
      exact ih hnd.2 hit hid

/-- C10: enrichment is best-effort and never fails: when the author or the
category of a returned issue/comment matches no stored user/category, the
record is still returned but the enrichment fields are absent (`none`). -/
theorem enrichment_best_effort (s : State) :
    (∀ (iid : Id) (i : IssueDoc), (s.issues.map IssueDoc.id).Nodup →
      i ∈ s.issues → i.id = iid →
      (∀ u ∈ s.users, u.id ≠ i.user_id) →
      (∀ c ∈ s.categories, c.id ≠ i.category_id) →
      ∃ e, get_issue s iid = Except.ok e ∧ e.user_name = none ∧
        e.category_name = none ∧ e.category_icon = none ∧
        e.title = i.title ∧ e.vote_count = i.vote_count) ∧
    (∀ (lat lng radius : Option ℚ) (cid : Option Id) (limit : Nat),
      ∀ e ∈ get_issues s lat lng radius cid limit,
        ((∀ u ∈ s.users, u.id ≠ e.user_id) → e.user_name = none) ∧
        ((∀ c ∈ s.categories, c.id ≠ e.category_id) →
          e.category_name = none ∧ e.category_icon = none)) ∧
    (∀ iid : Id, ∀ ec ∈ get_comments s iid,
      (∀ u ∈ s.users, u.id ≠ ec.user_id) → ec.user_name = none) := by
  refine ⟨?_, ?_, ?_⟩
  · intro iid i hnd hi hid hu hc
    have hf := find?_id_eq_of_nodup hnd hi hid
    refine ⟨enrichIssue s i, by simp [get_issue, hf], ?_, ?_, ?_, rfl, rfl⟩
    · show (s.users.find? (fun u => u.id == i.user_id)).map
        (fun u => u.name) = none
      rw [List.find?_eq_none.mpr (fun u hu2 => by
        simp only [beq_iff_eq]; exact hu u hu2)]
      rfl
    · show (s.categories.find? (fun c => c.id == i.category_id)).map
        (fun c => c.name) = none
      rw [List.find?_eq_none.mpr (fun c hc2 => by
        simp only [beq_iff_eq]; exact hc c hc2)]
      rfl
    · show (s.categories.find? (fun c => c.id == i.category_id)).map
        (fun c => c.icon) = none
      rw [List.find?_eq_none.mpr (fun c hc2 => by
        simp only [beq_iff_eq]; exact hc c hc2)]
      rfl
  · intro lat lng radius cid limit e he
    simp only [get_issues] at he
    obtain ⟨i, hi, rfl⟩ := List.mem_map.mp he
    constructor
    · intro hu
      show (s.users.find? (fun u => u.id == i.user_id)).map
        (fun u => u.name) = none
      rw [List.find?_eq_none.mpr (fun u hu2 => by
        simp only [beq_iff_eq]; exact hu u hu2)]
      rfl
    · intro hc
      constructor
      · show (s.categories.find? (fun c => c.id == i.category_id)).map
          (fun c => c.name) = none
        rw [List.find?_eq_none.mpr (fun c hc2 => by
          simp only [beq_iff_eq]; exact hc c hc2)]
        rfl
      · show (s.categories.find? (fun c => c.id == i.category_id)).map
          (fun c => c.icon) = none
        rw [List.find?_eq_none.mpr (fun c hc2 => by
          simp only [beq_iff_eq]; exact hc c hc2)]
        rfl
  · intro iid ec hec hu
    simp only [get_comments] at hec
    obtain ⟨c, hc, rfl⟩ := List.mem_map.mp hec
    show (s.users.find? (fun u => u.id == c.user_id)).map
      (fun u => u.name) = none
    rw [List.find?_eq_none.mpr (fun u hu2 => by
      simp only [beq_iff_eq]; exact hu u hu2)]
    rfl

/-- Witness for C10: on `sampleVotedState` the stored issue's author and
category are unknown, and `get` still returns it with the enrichment
fields absent. -/
theorem enrichment_best_effort_witness :
    ((sampleVotedState.issues.map IssueDoc.id).Nodup ∧
     sampleIssueDoc ∈ sampleVotedState.issues ∧
     sampleIssueDoc.id = Id.gen 0 ∧
     (∀ u ∈ sampleVotedState.users, u.id ≠ sampleIssueDoc.user_id) ∧
     (∀ c ∈ sampleVotedState.categories, c.id ≠ sampleIssueDoc.category_id)) ∧
    ∃ e, get_issue sampleVotedState (Id.gen 0) = Except.ok e ∧
      e.user_name = none ∧ e.category_name = none ∧ e.category_icon = none ∧
      e.title = sampleIssueDoc.title ∧
      e.vote_count = sampleIssueDoc.vote_count :=
  ⟨⟨by decide, by decide, by decide, by decide, by decide⟩,
   (enrichment_best_effort sampleVotedState).1 (Id.gen 0) sampleIssueDoc
     (by decide) (by decide) (by decide) (by decide) (by decide)⟩

/-- C4 as stated is refuted on two counts, both caused by Python
truthiness: supplying `lat = 0` (with `lng` supplied) disables the
bounding-box filter entirely (`if lat and lng:` treats `0.0` as unsupplied),
so an issue at latitude 10 is returned; and supplying the empty string as
`category_id` disables the category filter, so an issue of category
`raw "A"` is returned. -/
theorem get_issues_filter_counterexample :
    ((get_issues sampleGeoState (some 0) (some 10) (some 5) none 50).map
        (fun e => e.location_lat) = [10] ∧
      ¬ ((10 : ℚ) ≤ 0 + 0.05)) ∧
    ((get_issues sampleGeoState none none (some 5) (some (Id.raw "")) 50).map
        (fun e => e.category_id) = [Id.raw "A"] ∧
      Id.raw "A" ≠ Id.raw "") := by
  refine ⟨⟨?_, by norm_num⟩, ⟨?_, by decide⟩⟩ <;> decide

/-- C4 amended: whenever `lat` and `lng` are both supplied *and nonzero*,
every returned issue lies in the ±0.05-degree box; whenever `category_id`
is supplied *and non-empty*, every returned issue has that category; the
result is always sorted by `vote_count` descending with ties broken by
`created_at` descending, and has at most `limit` entries. -/
theorem get_issues_filter_sorted (s : State) (lat lng radius : Option ℚ)
    (cid : Option Id) (limit : Nat) :
    (∀ la ln : ℚ, lat = some la → lng = some ln → la ≠ 0 → ln ≠ 0 →
      ∀ e ∈ get_issues s lat lng radius cid limit,
        la - 0.05 ≤ e.location_lat ∧ e.location_lat ≤ la + 0.05 ∧
        ln - 0.05 ≤ e.location_long ∧ e.location_long ≤ ln + 0.05) ∧
    (∀ c : Id, cid = some c → c ≠ Id.raw "" →
      ∀ e ∈ get_issues s lat lng radius cid limit, e.category_id = c) ∧
    SortedByVotesCreated (get_issues s lat lng radius cid limit) ∧
    (get_issues s lat lng radius cid limit).length ≤ limit := by
  have hmem : ∀ e ∈ get_issues s lat lng radius cid limit,
      ∃ i, i ∈ s.issues.filter (issueMatch lat lng cid) ∧
        e = enrichIssue s i := by
    intro e he
    simp only [get_issues] at he
    obtain ⟨i, hi, rfl⟩ := List.mem_map.mp he
    refine ⟨i, ?_, rfl⟩
    exact (List.perm_insertionSort issueSortR _).mem_iff.mp
      (List.take_subset _ _ hi)
  refine ⟨?_, ?_, ?_, ?_⟩
  · intro la ln hla hln hla0 hln0 e he
    obtain ⟨i, hi, rfl⟩ := hmem e he
    have hcond := (List.mem_filter.mp hi).2
    rw [hla, hln] at hcond
    unfold issueMatch at hcond
    rw [Bool.and_eq_true] at hcond
    have hA := hcond.1
    have hft : (floatTruthy (some la) && floatTruthy (some ln)) = true := by
      simp [floatTruthy, hla0, hln0]
    rw [if_pos hft] at hA
    simp only [Bool.and_eq_true, decide_eq_true_eq] at hA
    exact ⟨hA.1.1.1, hA.1.1.2, hA.1.2, hA.2⟩
  · intro c hc hcne e he
    obtain ⟨i, hi, rfl⟩ := hmem e he
    have hcond := (List.mem_filter.mp hi).2
    rw [hc] at hcond
    unfold issueMatch at hcond
    rw [Bool.and_eq_true] at hcond
    have hB := hcond.2
    have hct : idTruthy (some c) = true := by
      cases c with
      | gen n => rfl
      | raw st =>
        simp only [idTruthy, bne_iff_ne, ne_eq, decide_eq_true_eq]
        intro hEq
        exact hcne (by rw [hEq])
    rw [hct] at hB
    rw [if_pos rfl] at hB
    exact beq_iff_eq.mp hB
  · have hS := List.sorted_insertionSort issueSortR
      (s.issues.filter (issueMatch lat lng cid))
    have htake := List.Pairwise.sublist
      (List.take_sublist limit _) hS
    show (List.map (enrichIssue s) _).Pairwise _
    exact List.pairwise_map.mpr (htake.imp (fun h => h))
  · simp only [get_issues, List.length_map, List.length_take]
    exact min_le_left _ _

/-- Witness for the amended C4: querying `sampleGeoState` at the nonzero
point (10, 10) returns only issues inside the box. -/
theorem get_issues_filter_sorted_witness :
    ((10 : ℚ) ≠ 0) ∧
    ∀ e ∈ get_issues sampleGeoState (some 10) (some 10) (some 5) none 50,
      (10 : ℚ) - 0.05 ≤ e.location_lat ∧
      e.location_lat ≤ (10 : ℚ) + 0.05 ∧
      (10 : ℚ) - 0.05 ≤ e.location_long ∧
      e.location_long ≤ (10 : ℚ) + 0.05 :=
  ⟨by norm_num,
   (get_issues_filter_sorted sampleGeoState (some 10) (some 10) (some 5)
     none 50).1 10 10 rfl rfl (by norm_num) (by norm_num)⟩

end Cirs
